import Mathlib

/-!
# The queue CLI (`frameworks/queue/cli/main.go`)

A shallow embedding of the run-targeting and request-construction code of the
queue command line client, and theorems about it.

Go strings and byte slices are byte sequences; both are `List UInt8` here.
Calls that leave the program (standard input, the file system, the random
source, the HTTP helpers of `cli/client`) are answered by an environment, and
every such call is recorded in a trace.
-/

set_option autoImplicit false
set_option maxRecDepth 100000

namespace QueueCli

/-! ## Bytes, string constants and errors -/

/-- A Go `string` or `[]byte`: a finite sequence of bytes. -/
abbrev Bytes := List UInt8

/-- The bytes of an ASCII string constant of the source. -/
def ascii (s : String) : Bytes := s.toList.map (fun c => UInt8.ofNat c.toNat)

/-- A Go `error` value, identified with the text its `Error()` method gives. -/
structure GoError where
  msg : Bytes
deriving DecidableEq, Repr

/-- The verb `%s` missing its operand, as package `fmt` prints it. -/
def missingOperand : Bytes := ascii "%!s(MISSING)"

/-- The part of `fmt.Sprintf` the source uses: the format is copied byte by
byte, `%s` is replaced by the next operand verbatim, `%%` by a percent sign.
The source only ever passes strings and errors to `%s`. -/
def Sprintf : Bytes → List Bytes → Bytes
  | [], _ => []
  | 37 :: 115 :: rest, a :: args => a ++ Sprintf rest args
  | 37 :: 115 :: rest, [] => missingOperand ++ Sprintf rest []
  | 37 :: 37 :: rest, args => 37 :: Sprintf rest args
  | c :: rest, args => c :: Sprintf rest args

/-- The function `fmt.Errorf`: an error whose text is the formatted string. -/
def Errorf (format : Bytes) (args : List Bytes) : GoError := ⟨Sprintf format args⟩

/-! ## The run flag -/

/-- What a call of a Go function that may call `os.Exit` does: it returns a
value, or it ends the process with a status after printing to standard output. -/
inductive Outcome (α : Type) where
  | returned (value : α)
  | exited (status : Nat) (stdout : Bytes)
deriving DecidableEq, Repr

/-- The struct `runFlag` (main.go:18). -/
structure runFlag where
  name : Bytes
deriving DecidableEq, Repr

/-- The method `(*runFlag).getPrefix` (main.go:22-30). -/
def runFlag.getPrefix (r : runFlag) : Outcome Bytes :=
  if r.name.length == 0 then
    .exited 1 (Sprintf (ascii "Missing required '--run' argument or 'RUN_NAME' envvar") [])
  else
    .returned (Sprintf (ascii "v1/run/%s/") [r.name])

/-! ## The environment and the trace -/

/-- A call that leaves the program, in the order the program makes them. -/
inductive Event where
  | PrintMessage (msg : Bytes)
  | HTTPServiceGet (path : Bytes)
  | HTTPServicePostData (path : Bytes) (body : Bytes) (contentType : Bytes)
  | HTTPServiceDelete (path : Bytes)
  | PrintJSONBytes (responseBytes : Bytes)
deriving DecidableEq, Repr

/-- Whether an event is a call of one of the three transport helpers. -/
def Event.isTransport : Event → Bool
  | .HTTPServiceGet _ => true
  | .HTTPServicePostData _ _ _ => true
  | .HTTPServiceDelete _ => true
  | _ => false

/-- Whether an event is a call of `client.HTTPServicePostData`. -/
def Event.isPost : Event → Bool
  | .HTTPServicePostData _ _ _ => true
  | _ => false

/-- Whether an event is a call of `client.PrintJSONBytes`. -/
def Event.isPrintJSON : Event → Bool
  | .PrintJSONBytes _ => true
  | _ => false

/-- The answers of everything outside the program: `ioutil.ReadAll(os.Stdin)`,
`ioutil.ReadFile`, the 30 bytes `randomBoundary` reads from `crypto/rand`, and
the three helpers of `cli/client`. -/
structure Env where
  ReadAllStdin : Except GoError Bytes
  ReadFile : Bytes → Except GoError Bytes
  random : Bytes
  random_length : random.length = 30
  HTTPServiceGet : Bytes → Except GoError Bytes
  HTTPServicePostData : Bytes → Bytes → Bytes → Except GoError Bytes
  HTTPServiceDelete : Bytes → Except GoError Bytes

/-- What an action of the command line returns (its `error`, `none` for `nil`)
together with the calls it made. -/
structure Result where
  trace : List Event
  err : Option GoError
deriving DecidableEq, Repr

/-! ## `path/filepath` and `mime/multipart` of the Go library

The functions of the Go standard library that `add` calls, embedded from the
library (`path/filepath/path.go`, `mime/multipart/writer.go`). The multipart
writer sits on an `io.Writer`, whose `Write` may fail; here that is a `Sink`.
The only sink that `add` uses is its `bytes.Buffer`, whose `Write` does not
fail. -/

/-- The constant `filepath.Separator` on Unix. -/
def Separator : UInt8 := 47

/-- The function `filepath.Base` on Unix (no volume names): the empty path
gives `.`, trailing separators are stripped, the part after the last separator
is kept, and a path of separators only gives one separator. -/
def Base (path : Bytes) : Bytes :=
  if path = [] then ascii "."
  else
    let stripped := (path.reverse.dropWhile (fun c => c == Separator)).reverse
    let last := (stripped.reverse.takeWhile (fun c => c != Separator)).reverse
    if last = [] then [Separator] else last

/-- The lower-case hexadecimal digit of a number below 16. -/
def hexDigit (n : Nat) : UInt8 :=
  if n < 10 then UInt8.ofNat (48 + n) else UInt8.ofNat (87 + n)

/-- The string `fmt.Sprintf("%x", buf)` of a byte slice: two digits a byte. -/
def hexBytes (buf : Bytes) : Bytes :=
  buf.flatMap (fun b => [hexDigit (b.toNat / 16), hexDigit (b.toNat % 16)])

/-- The function `randomBoundary` of `mime/multipart`: 30 random bytes in
hexadecimal. -/
def randomBoundary (env : Env) : Bytes := hexBytes env.random

/-- An `io.Writer` that appends to a buffer. Each `Write` consumes one entry of
`faults`; an entry `some e` makes that call fail with `e` and write nothing.
With no entries left every call succeeds. -/
structure Sink where
  buf : Bytes
  faults : List (Option GoError)
deriving DecidableEq, Repr

/-- The `bytes.Buffer` that `add` allocates: empty, and `Write` never fails. -/
def bytesBuffer : Sink := ⟨[], []⟩

/-- One call of `Write` on the sink. -/
def Sink.Write (s : Sink) (d : Bytes) : Sink × Option GoError :=
  match s.faults with
  | [] => (⟨s.buf ++ d, []⟩, none)
  | none :: rest => (⟨s.buf ++ d, rest⟩, none)
  | some e :: rest => (⟨s.buf, rest⟩, some e)

/-- The struct `part` of `mime/multipart` (without its back pointer): whether
it is closed and the last error met when writing to it. -/
structure part where
  closed : Bool
  we : Option GoError
deriving DecidableEq, Repr

/-- The struct `multipart.Writer`. The part handed out last is `lastpart`; the
`io.Writer` that `CreatePart` returns is that same part. -/
structure Writer where
  w : Sink
  boundary : Bytes
  lastpart : Option part
deriving DecidableEq, Repr

/-- The function `multipart.NewWriter`. -/
def NewWriter (w : Sink) (env : Env) : Writer := ⟨w, randomBoundary env, none⟩

/-- The method `(*Writer).FormDataContentType`. -/
def Writer.FormDataContentType (w : Writer) : Bytes :=
  ascii "multipart/form-data; boundary=" ++ w.boundary

/-- The function `escapeQuotes` of `mime/multipart` as the Go releases up to
1.21 have it: a backslash before every backslash and every double quote; every
other byte is kept as it is. -/
def escapeQuotes (s : Bytes) : Bytes :=
  s.flatMap (fun c => if c = 92 ∨ c = 34 then [92, c] else [c])

/-- The function `escapeQuotes` of `mime/multipart` as later Go releases have
it: as before, and a carriage return is written `%0D`, a line feed `%0A`. The
source does not say which release builds it; the two functions agree on every
string without a line break, and the statements below that depend on the file
name assume a name without one. -/
def escapeQuotesLater (s : Bytes) : Bytes :=
  s.flatMap (fun c =>
    if c = 92 ∨ c = 34 then [92, c]
    else if c = 13 then ascii "%0D"
    else if c = 10 then ascii "%0A"
    else [c])

/-- The header lines that `CreatePart` prints, one `key: value` line a header;
the keys arrive sorted, as `CreatePart` sorts them. -/
def headerLines (header : List (Bytes × Bytes)) : Bytes :=
  header.flatMap (fun kv => Sprintf (ascii "%s: %s\r\n") [kv.1, kv.2])

/-- The method `(*Writer).CreatePart`: closes the previous part and fails with
its write error if it has one; otherwise writes the delimiter line (preceded by
a line break when a part came before), the header lines and an empty line in
one `Write`, and on success makes a fresh part the last part. -/
def Writer.CreatePart (w : Writer) (header : List (Bytes × Bytes)) : Writer × Option GoError :=
  let w1 : Writer :=
    match w.lastpart with
    | some p => { w with lastpart := some { p with closed := true } }
    | none => w
  match w1.lastpart.bind (fun p => p.we) with
  | some err => (w1, some err)
  | none =>
    let b :=
      (if w1.lastpart.isSome then Sprintf (ascii "\r\n--%s\r\n") [w1.boundary]
       else Sprintf (ascii "--%s\r\n") [w1.boundary])
      ++ headerLines header ++ ascii "\r\n"
    match w1.w.Write b with
    | (s, some err) => ({ w1 with w := s }, some err)
    | (s, none) => ({ w1 with w := s, lastpart := some ⟨false, none⟩ }, none)

/-- The method `(*Writer).CreateFormFile`. -/
def Writer.CreateFormFile (w : Writer) (fieldname filename : Bytes) : Writer × Option GoError :=
  w.CreatePart
    [ (ascii "Content-Disposition",
        Sprintf (ascii "form-data; name=\"%s\"; filename=\"%s\"")
          [escapeQuotes fieldname, escapeQuotes filename]),
      (ascii "Content-Type", ascii "application/octet-stream") ]

/-- The method `(*Writer).CreateFormField`. -/
def Writer.CreateFormField (w : Writer) (fieldname : Bytes) : Writer × Option GoError :=
  w.CreatePart
    [ (ascii "Content-Disposition",
        Sprintf (ascii "form-data; name=\"%s\"") [escapeQuotes fieldname]) ]

/-- The method `(*part).Write`, on the last part of the writer: refused on a
closed part, otherwise one `Write` on the sink, whose error the part keeps.
The source only writes to a part that `CreatePart` has just returned, so there
is a last part; without one the call is refused as on a closed part. -/
def Writer.partWrite (w : Writer) (d : Bytes) : Writer × Option GoError :=
  match w.lastpart with
  | none => (w, some ⟨ascii "multipart: can't write to finished part"⟩)
  | some p =>
    if p.closed then (w, some ⟨ascii "multipart: can't write to finished part"⟩)
    else
      match w.w.Write d with
      | (s, some err) => ({ w with w := s, lastpart := some { p with we := some err } }, some err)
      | (s, none) => ({ w with w := s }, none)

/-- The method `(*Writer).WriteField`. -/
def Writer.WriteField (w : Writer) (fieldname value : Bytes) : Writer × Option GoError :=
  match w.CreateFormField fieldname with
  | (w1, some err) => (w1, some err)
  | (w1, none) => w1.partWrite value

/-- The method `(*Writer).Close`: closes the last part and fails with its
write error if it has one; otherwise writes the closing delimiter line. -/
def Writer.Close (w : Writer) : Writer × Option GoError :=
  match w.lastpart with
  | some p =>
    match p.we with
    | some err => ({ w with lastpart := some { p with closed := true } }, some err)
    | none =>
      match w.w.Write (Sprintf (ascii "\r\n--%s--\r\n") [w.boundary]) with
      | (s, err) => ({ w with w := s, lastpart := none }, err)
  | none =>
    match w.w.Write (Sprintf (ascii "\r\n--%s--\r\n") [w.boundary]) with
    | (s, err) => ({ w with w := s }, err)

/-! ## The run commands -/

/-- The struct `runHandler` (main.go:85). -/
structure runHandler where
  run : Bytes
  specType : Bytes
  specFile : Bytes
deriving DecidableEq, Repr

/-- The method `(*runHandler).list` (main.go:91-98). -/
def runHandler.list (env : Env) (_cmd : runHandler) : Result :=
  match env.HTTPServiceGet (ascii "v1/runs") with
  | .error err => ⟨[.HTTPServiceGet (ascii "v1/runs")], some err⟩
  | .ok responseBytes =>
    ⟨[.HTTPServiceGet (ascii "v1/runs"), .PrintJSONBytes responseBytes], none⟩

/-- The first half of `add` (main.go:101-116): the spec is read from standard
input when the path is `stdin`, from the file otherwise. Gives the calls made
and the bytes read or the wrapped error. -/
def readSpec (env : Env) (cmd : runHandler) : List Event × Except GoError Bytes :=
  if cmd.specFile = ascii "stdin" then
    ( [.PrintMessage (ascii "Reading spec file from stdin...")],
      match env.ReadAllStdin with
      | .error err => .error (Errorf (ascii "Failed to read run spec from stdin: %s") [err.msg])
      | .ok fileBytes => .ok fileBytes )
  else
    ( [],
      match env.ReadFile cmd.specFile with
      | .error err =>
        .error (Errorf (ascii "Failed to read specified run spec file %s: %s")
          [cmd.specFile, err.msg])
      | .ok fileBytes => .ok fileBytes )

/-- The method `(*runHandler).add` (main.go:100-142). The payload buffer is a
fresh `bytes.Buffer` (main.go:118); the result of `WriteField` is dropped, as
in the source (main.go:122). -/
def runHandler.add (env : Env) (cmd : runHandler) : Result :=
  match readSpec env cmd with
  | (tr, .error err) => ⟨tr, some err⟩
  | (tr, .ok fileBytes) =>
    let payloadBuf := bytesBuffer
    let formWriter := NewWriter payloadBuf env
    let formWriter := (formWriter.WriteField (ascii "type") cmd.specType).1
    match formWriter.CreateFormFile (ascii "file") (Base cmd.specFile) with
    | (_, some err) => ⟨tr, some (Errorf (ascii "Failed to create form: %s") [err.msg])⟩
    | (formWriter, none) =>
      match formWriter.partWrite fileBytes with
      | (_, some err) => ⟨tr, some (Errorf (ascii "Failed to store form data: %s") [err.msg])⟩
      | (formWriter, none) =>
        match formWriter.Close with
        | (_, some err) => ⟨tr, some (Errorf (ascii "Failed to write form data: %s") [err.msg])⟩
        | (formWriter, none) =>
          let post := Event.HTTPServicePostData (ascii "v1/runs") formWriter.w.buf
            formWriter.FormDataContentType
          match env.HTTPServicePostData (ascii "v1/runs") formWriter.w.buf
              formWriter.FormDataContentType with
          | .error err => ⟨tr ++ [post], some err⟩
          | .ok responseBytes => ⟨tr ++ [post, .PrintJSONBytes responseBytes], none⟩

/-- The method `(*runHandler).delete` (main.go:144-151). -/
def runHandler.delete (env : Env) (cmd : runHandler) : Result :=
  let path := Sprintf (ascii "v1/runs/%s") [cmd.run]
  match env.HTTPServiceDelete path with
  | .error err => ⟨[.HTTPServiceDelete path], some err⟩
  | .ok responseBytes => ⟨[.HTTPServiceDelete path, .PrintJSONBytes responseBytes], none⟩

/-! ## The set-up of `main` -/

/-- The address of a variable of type `runFlag`. -/
abbrev Addr := Nat

/-- The memory that holds the `runFlag` variables. -/
abbrev Heap := Addr → runFlag

/-- A value of the field `PrefixCb`, a Go `func() string`: it runs against the
memory as it is when it is called. -/
abbrev PrefixSupplier := Heap → Outcome Bytes

/-- The method value `name.getPrefix` of main.go:46-56. The method has a
pointer receiver and `name` is a variable, so the value is bound to the address
of `name`, not to a copy of the struct. -/
def boundGetPrefix (name : Addr) : PrefixSupplier := fun heap => (heap name).getPrefix

/-- A query object of package `queries`, reduced to its field `PrefixCb`
(`none` for a nil function). -/
structure Queries where
  PrefixCb : Option PrefixSupplier

/-- The query objects that `main` builds. -/
structure MainQueries where
  configQueries : Queries
  endpointsQueries : Queries
  pkgQueries : Queries
  planQueries : Queries
  podQueries : Queries
  stateQueries : Queries

/-- The statement `name := runFlag{}` (main.go:42): the variable at address
`name` starts with the empty string. -/
def declareName (name : Addr) (heap : Heap) : Heap := Function.update heap name ⟨[]⟩

/-- The set-up of main.go:45-56: every query object but `pkgQueries` gets the
method value `name.getPrefix`. -/
def mainQueries (name : Addr) : MainQueries where
  configQueries := ⟨some (boundGetPrefix name)⟩
  endpointsQueries := ⟨some (boundGetPrefix name)⟩
  pkgQueries := ⟨none⟩
  planQueries := ⟨some (boundGetPrefix name)⟩
  podQueries := ⟨some (boundGetPrefix name)⟩
  stateQueries := ⟨some (boundGetPrefix name)⟩

/-- The run-scoped query objects of `main`, in the order they are built. -/
def MainQueries.scoped (q : MainQueries) : List Queries :=
  [q.configQueries, q.endpointsQueries, q.planQueries, q.podQueries, q.stateQueries]

/-- The effect of `StringVar(&name.name)` (main.go:43) when the command line is
parsed: the value of `--run` or of `RUN_NAME` is stored through the pointer. -/
def StringVar (name : Addr) (value : Bytes) (heap : Heap) : Heap :=
  Function.update heap name { heap name with name := value }

/-! ## The multipart format and a decoder for it -/

/-- One part of a `multipart/form-data` body: the form name, the file name if
the part is a file, and the bytes. -/
structure FormPart where
  name : Bytes
  fileName : Option Bytes
  content : Bytes
deriving DecidableEq, Repr

/-- The line break of the format. -/
def crlf : Bytes := [13, 10]

/-- The delimiter that ends the bytes of a part: a line break, two dashes and
the boundary. -/
def delimiter (boundary : Bytes) : Bytes := crlf ++ ascii "--" ++ boundary

/-- The boundary as it stands at the start of a line around the parts: two
dashes and the boundary. -/
def dashBoundary (boundary : Bytes) : Bytes := ascii "--" ++ boundary

/-- The header lines of a part in the format, each ended by a line break. -/
def FormPart.headers (p : FormPart) : Bytes :=
  match p.fileName with
  | none =>
    ascii "Content-Disposition: form-data; name=\"" ++ escapeQuotes p.name ++ ascii "\"" ++ crlf
  | some f =>
    ascii "Content-Disposition: form-data; name=\"" ++ escapeQuotes p.name
      ++ ascii "\"; filename=\"" ++ escapeQuotes f ++ ascii "\"" ++ crlf
      ++ ascii "Content-Type: application/octet-stream" ++ crlf

/-- What follows the opening boundary in the format: every part as a line
break, its header lines, an empty line, its bytes and the delimiter; after the
last delimiter two dashes and a line break. -/
def formDataTail (boundary : Bytes) : List FormPart → Bytes
  | [] => ascii "--" ++ crlf
  | p :: ps => crlf ++ p.headers ++ crlf ++ p.content ++ delimiter boundary
      ++ formDataTail boundary ps

/-- The body of the `multipart/form-data` format (RFC 2046, RFC 7578) for a
boundary and a list of parts. -/
def formData (boundary : Bytes) (parts : List FormPart) : Bytes :=
  ascii "--" ++ boundary ++ formDataTail boundary parts

/-- Removes the leading bytes `pre` of a byte sequence, if it starts with them. -/
def dropLeading : Bytes → Bytes → Option Bytes
  | [], s => some s
  | _ :: _, [] => none
  | p :: ps, c :: s => if p = c then dropLeading ps s else none

/-- Splits a byte sequence at the first occurrence of `pat`: the bytes before
it and the bytes after it. -/
def splitAtFirst (pat : Bytes) : Bytes → Option (Bytes × Bytes)
  | [] => none
  | c :: s =>
    match dropLeading pat (c :: s) with
    | some rest => some ([], rest)
    | none =>
      match splitAtFirst pat s with
      | some (before, after) => some (c :: before, after)
      | none => none

/-- Reads a quoted string after its opening quote: up to the closing quote,
a backslash standing for the byte after it. Gives the string and what follows
the closing quote. -/
def unquote : Bytes → Option (Bytes × Bytes)
  | [] => none
  | 34 :: rest => some ([], rest)
  | 92 :: c :: rest =>
    match unquote rest with
    | some (value, after) => some (c :: value, after)
    | none => none
  | c :: rest =>
    match unquote rest with
    | some (value, after) => some (c :: value, after)
    | none => none

/-- Reads a `Content-Disposition: form-data` header line: the form name and,
when present, the file name. -/
def parseDisposition (line : Bytes) : Option (Bytes × Option Bytes) :=
  match dropLeading (ascii "Content-Disposition: form-data; name=\"") line with
  | none => none
  | some s =>
    match unquote s with
    | none => none
    | some (name, rest) =>
      match dropLeading (ascii "; filename=\"") rest with
      | none => some (name, none)
      | some s2 =>
        match unquote s2 with
        | none => none
        | some (fileName, _) => some (name, some fileName)

/-- Modelled from the spec: the header reader of the decoder of the remote
side. Reads header lines, each ended by a line break, up to and including the
empty line: the lines and what follows the empty line. A line that holds a
carriage return or a line feed of its own is refused (RFC 5322, 2.2). -/
def readHeaderLines : Nat → Bytes → Option (List Bytes × Bytes)
  | 0, _ => none
  | fuel + 1, s =>
    match splitAtFirst crlf s with
    | none => none
    | some ([], rest) => some ([], rest)
    | some (line, rest) =>
      if 13 ∈ line ∨ 10 ∈ line then none
      else
        match readHeaderLines fuel rest with
        | none => none
        | some (lines, after) => some (line :: lines, after)

/-- Modelled from the spec: the loop of the decoder of the remote side. Reads
the parts after a boundary: two dashes end the body; a line break
starts a part, whose header lines run to the empty line. The delimiter that
ends the part is searched from the line break of the empty line on, as the
grammar `body-part := headers [CRLF *OCTET]` of RFC 2046 has it: a delimiter
found right there ends a part without bytes, and otherwise the bytes of the
part are what stands between that line break and the delimiter. -/
def readParts (boundary : Bytes) : Nat → Bytes → Option (List FormPart)
  | 0, _ => none
  | fuel + 1, s =>
    match dropLeading (ascii "--") s with
    | some _ => some []
    | none =>
      match dropLeading crlf s with
      | none => none
      | some s1 =>
        match readHeaderLines s1.length s1 with
        | none => none
        | some (lines, s2) =>
          match splitAtFirst (delimiter boundary) (crlf ++ s2) with
          | none => none
          | some (upTo, s3) =>
            match lines.findSome? parseDisposition, readParts boundary fuel s3 with
            | some (name, fileName), some parts =>
              some (⟨name, fileName, upTo.drop crlf.length⟩ :: parts)
            | _, _ => none

/-- Modelled from the spec: the remote side that splits the multipart body,
whose code is not in `frameworks/queue/cli`. A decoder of
`multipart/form-data` (RFC 2046): the boundary is read off the content-type
header, the body has to start with two dashes and the boundary, and the parts
are read up to the closing delimiter. -/
def decodeForm (contentType body : Bytes) : Option (List FormPart) :=
  match dropLeading (ascii "multipart/form-data; boundary=") contentType with
  | none => none
  | some boundary =>
    match dropLeading (ascii "--" ++ boundary) body with
    | none => none
    | some s => readParts boundary body.length s

/-- The form that the first call of `HTTPServicePostData` in a trace carries,
as the decoder reads it. -/
def postedForm : List Event → Option (List FormPart)
  | [] => none
  | .HTTPServicePostData _ body contentType :: _ => decodeForm contentType body
  | _ :: rest => postedForm rest

/-- The conditions under which the decoder finds a part again: no carriage
return and no line feed in its names, and no delimiter in its bytes preceded
by a line break (the bytes neither hold the delimiter nor start with two
dashes and the boundary). -/
def FormPart.wellDelimited (boundary : Bytes) (p : FormPart) : Prop :=
  ((13 : UInt8) ∉ p.name ∧ (10 : UInt8) ∉ p.name) ∧
    (∀ f, p.fileName = some f → (13 : UInt8) ∉ f ∧ (10 : UInt8) ∉ f) ∧
    ¬ delimiter boundary <:+: crlf ++ p.content

/-- The two parts that `add` packs for a spec it has read: the field `type`
with the spec type, and the file part `file`, named by the base name of the
path, with the bytes read. -/
def addParts (cmd : runHandler) (fileBytes : Bytes) : List FormPart :=
  [⟨ascii "type", none, cmd.specType⟩, ⟨ascii "file", some (Base cmd.specFile), fileBytes⟩]

/-- The call of `HTTPServicePostData` with the two parts of `addParts` in the
multipart format under the boundary of the environment. -/
def addPost (env : Env) (cmd : runHandler) (fileBytes : Bytes) : Event :=
  .HTTPServicePostData (ascii "v1/runs") (formData (randomBoundary env) (addParts cmd fileBytes))
    (ascii "multipart/form-data; boundary=" ++ randomBoundary env)

/-- The first multipart step of `add` (main.go:121-122): the writer on the
fresh buffer after `WriteField("type", specType)`, and the error of that call. -/
def addFieldStep (env : Env) (cmd : runHandler) : Writer × Option GoError :=
  (NewWriter bytesBuffer env).WriteField (ascii "type") cmd.specType

/-- The second multipart step of `add` (main.go:123): the writer after
`CreateFormFile("file", filepath.Base(specFile))`, and the error of that call. -/
def addFileStep (env : Env) (cmd : runHandler) : Writer × Option GoError :=
  (addFieldStep env cmd).1.CreateFormFile (ascii "file") (Base cmd.specFile)

/-- The third multipart step of `add` (main.go:127): the writer after
`fileWriter.Write(fileBytes)`, and the error of that call. -/
def addBytesStep (env : Env) (cmd : runHandler) (fileBytes : Bytes) : Writer × Option GoError :=
  (addFileStep env cmd).1.partWrite fileBytes

/-- The fourth multipart step of `add` (main.go:131): the writer after
`formWriter.Close()`, and the error of that call. -/
def addCloseStep (env : Env) (cmd : runHandler) (fileBytes : Bytes) : Writer × Option GoError :=
  (addBytesStep env cmd fileBytes).1.Close

/-! ## Example inputs -/

/-- Thirty bytes a random source may give: the bytes 0 to 29. -/
def exampleRandom : Bytes := (List.range 30).map UInt8.ofNat

/-- Thirty other bytes a random source may give: all 255. -/
def otherRandom : Bytes := List.replicate 30 255

/-- The path of the examples. -/
def examplePath : Bytes := ascii "/tmp/spec.yml"

/-- A path at which the example environments have no file. -/
def missingPath : Bytes := ascii "/tmp/missing.yml"

/-- An environment in which standard input and every file but the one at
`missingPath` hold `spec`, the random source gives `random`, and every request
is answered with `[]`. -/
def exampleEnv (spec : Bytes) (random : Bytes) (h : random.length = 30) : Env where
  ReadAllStdin := .ok spec
  ReadFile := fun path =>
    if path = missingPath then .error ⟨ascii "open /tmp/missing.yml: no such file or directory"⟩
    else .ok spec
  random := random
  random_length := h
  HTTPServiceGet := fun _ => .ok (ascii "[]")
  HTTPServicePostData := fun _ _ _ => .ok (ascii "[]")
  HTTPServiceDelete := fun _ => .ok (ascii "[]")

/-- A spec that holds the closing delimiter of the boundary that
`exampleRandom` gives: the byte `a`, the delimiter, two dashes, a line break
and the byte `b`. -/
def collidingSpec : Bytes :=
  ascii "a" ++ delimiter (hexBytes exampleRandom) ++ ascii "--\r\nb"

/-- The error of the transport helpers in `downEnv`. -/
def connectionRefused : GoError := ⟨ascii "dial tcp: connection refused"⟩

/-- An environment like `exampleEnv` in which every request fails with
`connectionRefused`. -/
def downEnv (spec : Bytes) (random : Bytes) (h : random.length = 30) : Env where
  ReadAllStdin := .ok spec
  ReadFile := fun path =>
    if path = missingPath then .error ⟨ascii "open /tmp/missing.yml: no such file or directory"⟩
    else .ok spec
  random := random
  random_length := h
  HTTPServiceGet := fun _ => .error connectionRefused
  HTTPServicePostData := fun _ _ _ => .error connectionRefused
  HTTPServiceDelete := fun _ => .error connectionRefused

/-- A spec that holds more than the closing delimiter of the boundary that
`exampleRandom` gives: the byte `x`, the delimiter, a line break, the header
of a field `extra`, an empty line and the byte `y`. -/
def threePartSpec : Bytes :=
  ascii "x" ++ delimiter (hexBytes exampleRandom) ++ crlf
    ++ ascii "Content-Disposition: form-data; name=\"extra\"" ++ crlf ++ crlf ++ ascii "y"

/-- A spec that starts with the closing boundary line of the boundary that
`exampleRandom` gives, followed by `hello`. -/
def leadingBoundarySpec : Bytes :=
  ascii "--" ++ hexBytes exampleRandom ++ ascii "--\r\nhello"

/-! ## Lemmas on the search functions of the decoder -/

theorem dropLeading_eq_some_iff (p s r : Bytes) : dropLeading p s = some r ↔ s = p ++ r := by
  induction p generalizing s with
  | nil => simp [dropLeading, eq_comm]
  | cons a p ih =>
    cases s with
    | nil => simp [dropLeading]
    | cons c s =>
      by_cases hac : a = c
      · subst hac
        simp [dropLeading, ih]
      · have hca : ¬ c = a := fun h => hac h.symm
        simp [dropLeading, hac, hca]

theorem dropLeading_append (p r : Bytes) : dropLeading p (p ++ r) = some r :=
  (dropLeading_eq_some_iff p (p ++ r) r).2 rfl

theorem dropLeading_head_ne (a c : UInt8) (p s : Bytes) (h : a ≠ c) :
    dropLeading (a :: p) (c :: s) = none := by
  simp [dropLeading, h]

theorem splitAtFirst_cons_some (pat : Bytes) (c : UInt8) (s rest : Bytes)
    (h : dropLeading pat (c :: s) = some rest) :
    splitAtFirst pat (c :: s) = some ([], rest) := by
  rw [splitAtFirst, h]

theorem splitAtFirst_cons_none (pat : Bytes) (c : UInt8) (s before after : Bytes)
    (h : dropLeading pat (c :: s) = none) (hs : splitAtFirst pat s = some (before, after)) :
    splitAtFirst pat (c :: s) = some (c :: before, after) := by
  rw [splitAtFirst, h, hs]

theorem splitAtFirst_hit (d : UInt8) (p r : Bytes) :
    splitAtFirst (d :: p) (d :: p ++ r) = some ([], r) :=
  splitAtFirst_cons_some (d :: p) d (p ++ r) r (dropLeading_append (d :: p) r)

theorem splitAtFirst_skip (d : UInt8) (p x y before after : Bytes) (hx : d ∉ x)
    (hy : splitAtFirst (d :: p) y = some (before, after)) :
    splitAtFirst (d :: p) (x ++ y) = some (x ++ before, after) := by
  induction x with
  | nil => simpa using hy
  | cons c x ih =>
    have hdc : d ≠ c := fun h => hx (by simp [h])
    have hx2 : d ∉ x := fun h => hx (List.mem_cons_of_mem _ h)
    exact splitAtFirst_cons_none (d :: p) c (x ++ y) (x ++ before) after
      (dropLeading_head_ne d c p _ hdc) (ih hx2)

theorem splitAtFirst_line (x r : Bytes) (hx : (13 : UInt8) ∉ x) :
    splitAtFirst crlf (x ++ crlf ++ r) = some (x, r) := by
  have h := splitAtFirst_skip 13 [10] x (crlf ++ r) [] r hx (splitAtFirst_hit 13 [10] r)
  simpa [crlf, List.append_assoc] using h

theorem splitAtFirst_unique (d : UInt8) (p x r : Bytes) (hd : d ∉ p)
    (hx : ¬ (d :: p) <:+: x) :
    splitAtFirst (d :: p) (x ++ (d :: p) ++ r) = some (x, r) := by
  induction x with
  | nil => simpa using splitAtFirst_hit d p r
  | cons c x ih =>
    have hx2 : ¬ (d :: p) <:+: x := fun h => hx (List.IsInfix.trans h (List.infix_cons (List.infix_refl x)))
    have hnone : dropLeading (d :: p) (c :: (x ++ d :: p ++ r)) = none := by
      cases hdl : dropLeading (d :: p) (c :: (x ++ d :: p ++ r)) with
      | none => rfl
      | some rest =>
        exfalso
        rw [dropLeading_eq_some_iff] at hdl
        have hpre1 : (d :: p) <+: (c :: x) ++ (d :: p ++ r) := ⟨rest, by simpa using hdl.symm⟩
        have hpre2 : (c :: x) <+: (c :: x) ++ (d :: p ++ r) := List.prefix_append _ _
        rcases Nat.le_total (d :: p).length (c :: x).length with hle | hle
        · exact hx (List.prefix_of_prefix_length_le hpre1 hpre2 hle).isInfix
        · obtain ⟨t, ht⟩ := List.prefix_of_prefix_length_le hpre2 hpre1 hle
          -- d :: p = c :: x ++ t
          have hcd : c = d := by
            have := congrArg List.head? ht
            simpa using this
          have hp : p = x ++ t := by
            have := congrArg List.tail ht
            simpa using this.symm
          -- the text: c :: x ++ (d :: p ++ r) = (c :: x ++ t) ++ rest
          have htext : (c :: x) ++ (d :: p ++ r) = (c :: x) ++ (t ++ rest) := by
            have h1 : (c :: x) ++ (d :: p ++ r) = (d :: p) ++ rest := by simpa using hdl
            rw [h1, ← ht, List.append_assoc]
          have h2 : d :: p ++ r = t ++ rest := List.append_cancel_left htext
          cases t with
          | nil =>
            -- then d :: p = c :: x, an infix of c :: x
            exact hx (by rw [← ht]; simp)
          | cons e t =>
            have hed : e = d := by
              have := congrArg List.head? h2
              simpa using this.symm
            apply hd
            rw [hp, ← hed]
            simp
    have hcons : (c :: x) ++ (d :: p) ++ r = c :: (x ++ d :: p ++ r) := by simp
    rw [hcons]
    exact splitAtFirst_cons_none (d :: p) c _ x r hnone (ih hx2)

/-! ## Lemmas on the decoder -/

theorem unquote_escapeQuotes (s r : Bytes) :
    unquote (escapeQuotes s ++ 34 :: r) = some (s, r) := by
  induction s with
  | nil => simp [escapeQuotes, unquote]
  | cons c s ih =>
    have hstep : escapeQuotes (c :: s) = (if c = 92 ∨ c = 34 then [92, c] else [c]) ++ escapeQuotes s := by
      simp [escapeQuotes]
    rw [hstep]
    by_cases h92 : c = 92
    · subst h92
      simp [unquote, ih]
    · by_cases h34 : c = 34
      · subst h34
        simp [unquote, ih]
      · simp only [h92, h34, or_self, if_false, List.singleton_append, List.cons_append]
        rw [unquote]
        · simp [ih]
        · exact h34
        · intro c2 rest2 hc _
          exact h92 hc

theorem not_mem_escapeQuotes (b : UInt8) (hb : b ≠ 92) (s : Bytes) (h : b ∉ s) :
    b ∉ escapeQuotes s := by
  induction s with
  | nil => simp [escapeQuotes]
  | cons c s ih =>
    have hc : b ≠ c := fun hc => h (by simp [hc])
    have hs : b ∉ s := fun hs => h (List.mem_cons_of_mem _ hs)
    have ih2 := ih hs
    simp only [escapeQuotes, List.flatMap_cons, List.mem_append] at ih2 ⊢
    rintro (h1 | h1)
    · split at h1
      · simp at h1
        rcases h1 with h1 | h1
        · exact hb h1
        · exact hc h1
      · simp at h1
        exact hc h1
    · exact ih2 h1

/-- The two releases of `escapeQuotes` agree on a string without a line break. -/
theorem escapeQuotesLater_eq (s : Bytes) (hcr : (13 : UInt8) ∉ s) (hlf : (10 : UInt8) ∉ s) :
    escapeQuotesLater s = escapeQuotes s := by
  induction s with
  | nil => rfl
  | cons c s ih =>
    have hc13 : c ≠ 13 := fun hc => hcr (by simp [hc])
    have hc10 : c ≠ 10 := fun hc => hlf (by simp [hc])
    have ih2 := ih (fun h => hcr (List.mem_cons_of_mem _ h)) (fun h => hlf (List.mem_cons_of_mem _ h))
    simp only [escapeQuotesLater, escapeQuotes, List.flatMap_cons] at ih2 ⊢
    rw [ih2]
    simp [hc13, hc10]

theorem hexDigit_ne_cr (n : Nat) (h : n < 16) : hexDigit n ≠ 13 := by
  interval_cases n <;> decide

theorem not_mem_hexBytes (buf : Bytes) : (13 : UInt8) ∉ hexBytes buf := by
  induction buf with
  | nil => simp [hexBytes]
  | cons b buf ih =>
    have hb : b.toNat < 256 := b.val.isLt
    simp only [hexBytes, List.flatMap_cons, List.mem_append] at ih ⊢
    rintro (h1 | h1)
    · simp at h1
      rcases h1 with h1 | h1
      · exact hexDigit_ne_cr _ (by omega) h1.symm
      · exact hexDigit_ne_cr _ (by omega) h1.symm
    · exact ih h1

theorem parseDisposition_field (name : Bytes) :
    parseDisposition (ascii "Content-Disposition: form-data; name=\"" ++ escapeQuotes name
      ++ ascii "\"") = some (name, none) := by
  have h1 : ascii "\"" = [34] := rfl
  simp only [parseDisposition, List.append_assoc, dropLeading_append, h1, List.singleton_append,
    unquote_escapeQuotes]
  rfl

theorem parseDisposition_file (name f : Bytes) :
    parseDisposition (ascii "Content-Disposition: form-data; name=\"" ++ escapeQuotes name
      ++ ascii "\"; filename=\"" ++ escapeQuotes f ++ ascii "\"") = some (name, some f) := by
  have h1 : ascii "\"" = [34] := rfl
  have h2 : ascii "\"; filename=\"" = 34 :: ascii "; filename=\"" := rfl
  simp only [parseDisposition, List.append_assoc, dropLeading_append, h1, h2, List.cons_append,
    List.singleton_append, unquote_escapeQuotes]

theorem readHeaderLines_end (fuel : Nat) (r : Bytes) :
    readHeaderLines (fuel + 1) (crlf ++ r) = some ([], r) := by
  have h := splitAtFirst_line [] r (by simp)
  simp only [List.nil_append] at h
  rw [readHeaderLines, h]

theorem readHeaderLines_line (fuel : Nat) (line rest after : Bytes) (lines : List Bytes)
    (hne : line ≠ []) (hcr : (13 : UInt8) ∉ line) (hlf : (10 : UInt8) ∉ line)
    (hrest : readHeaderLines fuel rest = some (lines, after)) :
    readHeaderLines (fuel + 1) (line ++ crlf ++ rest) = some (line :: lines, after) := by
  cases line with
  | nil => exact absurd rfl hne
  | cons c l =>
    rw [readHeaderLines, splitAtFirst_line (c :: l) rest hcr]
    simp only [hrest, hcr, hlf, or_self, if_false]

theorem not_mem_disposition_field (b : UInt8) (hb : b = 13 ∨ b = 10) (name : Bytes)
    (h : b ∉ name) :
    b ∉ ascii "Content-Disposition: form-data; name=\"" ++ escapeQuotes name ++ ascii "\"" := by
  have hb92 : b ≠ 92 := by rcases hb with rfl | rfl <;> decide
  have h1 : b ∉ ascii "Content-Disposition: form-data; name=\"" := by
    rcases hb with rfl | rfl <;> decide
  have h2 : b ∉ ascii "\"" := by rcases hb with rfl | rfl <;> decide
  simp only [List.mem_append, not_or]
  exact ⟨⟨h1, not_mem_escapeQuotes b hb92 name h⟩, h2⟩

theorem not_mem_disposition_file (b : UInt8) (hb : b = 13 ∨ b = 10) (name f : Bytes)
    (h : b ∉ name) (hf : b ∉ f) :
    b ∉ ascii "Content-Disposition: form-data; name=\"" ++ escapeQuotes name
      ++ ascii "\"; filename=\"" ++ escapeQuotes f ++ ascii "\"" := by
  have hb92 : b ≠ 92 := by rcases hb with rfl | rfl <;> decide
  have h1 : b ∉ ascii "Content-Disposition: form-data; name=\"" := by
    rcases hb with rfl | rfl <;> decide
  have h2 : b ∉ ascii "\"" := by rcases hb with rfl | rfl <;> decide
  have h3 : b ∉ ascii "\"; filename=\"" := by rcases hb with rfl | rfl <;> decide
  simp only [List.mem_append, not_or]
  exact ⟨⟨⟨⟨h1, not_mem_escapeQuotes b hb92 name h⟩, h3⟩, not_mem_escapeQuotes b hb92 f hf⟩, h2⟩

theorem ascii_disposition_ne_nil (x : Bytes) :
    ascii "Content-Disposition: form-data; name=\"" ++ x ≠ [] := by
  have h : ascii "Content-Disposition: form-data; name=\"" =
      67 :: (ascii "ontent-Disposition: form-data; name=\"") := rfl
  rw [h]
  simp

/-- Reading the header lines of a part gives lines among which the disposition
line is found with the names of the part. -/
theorem readHeaderLines_headers (boundary : Bytes) (p : FormPart) (r : Bytes) (fuel : Nat)
    (hp : p.wellDelimited boundary) :
    ∃ lines, readHeaderLines (fuel + 3) (p.headers ++ crlf ++ r) = some (lines, r) ∧
      lines.findSome? parseDisposition = some (p.name, p.fileName) := by
  obtain ⟨name, fileName, content⟩ := p
  obtain ⟨⟨hname, hname2⟩, hfile, -⟩ := hp
  cases fileName with
  | none =>
    refine ⟨[ascii "Content-Disposition: form-data; name=\"" ++ escapeQuotes name ++ ascii "\""],
      ?_, ?_⟩
    · have h := readHeaderLines_line (fuel + 2)
        (ascii "Content-Disposition: form-data; name=\"" ++ escapeQuotes name ++ ascii "\"")
        (crlf ++ r) r [] (by rw [List.append_assoc]; exact ascii_disposition_ne_nil _)
        (not_mem_disposition_field 13 (Or.inl rfl) name hname)
        (not_mem_disposition_field 10 (Or.inr rfl) name hname2)
        (readHeaderLines_end (fuel + 1) r)
      simpa [FormPart.headers, List.append_assoc] using h
    · simp only [List.findSome?, parseDisposition_field]
  | some f =>
    obtain ⟨hf, hf2⟩ := hfile f rfl
    refine ⟨[ascii "Content-Disposition: form-data; name=\"" ++ escapeQuotes name
        ++ ascii "\"; filename=\"" ++ escapeQuotes f ++ ascii "\"",
      ascii "Content-Type: application/octet-stream"], ?_, ?_⟩
    · have h2 := readHeaderLines_line (fuel + 1) (ascii "Content-Type: application/octet-stream")
        (crlf ++ r) r [] (by decide) (by decide) (by decide) (readHeaderLines_end fuel r)
      have h := readHeaderLines_line (fuel + 2)
        (ascii "Content-Disposition: form-data; name=\"" ++ escapeQuotes name
          ++ ascii "\"; filename=\"" ++ escapeQuotes f ++ ascii "\"")
        _ r _ (by simp only [List.append_assoc]; exact ascii_disposition_ne_nil _)
        (not_mem_disposition_file 13 (Or.inl rfl) name f hname hf)
        (not_mem_disposition_file 10 (Or.inr rfl) name f hname2 hf2) h2
      simpa [FormPart.headers, List.append_assoc] using h
    · simp only [List.findSome?, parseDisposition_file]

theorem delimiter_eq (boundary : Bytes) : delimiter boundary = 13 :: (10 :: 45 :: 45 :: boundary) := rfl

theorem headers_length_pos (p : FormPart) : 0 < p.headers.length := by
  obtain ⟨name, fileName, content⟩ := p
  cases fileName <;> simp [FormPart.headers, crlf]

theorem length_formDataTail (boundary : Bytes) (parts : List FormPart) :
    parts.length < (formDataTail boundary parts).length := by
  induction parts with
  | nil => simp [formDataTail, crlf]
  | cons p ps ih =>
    simp only [formDataTail, List.length_append, List.length_cons]
    have : crlf.length = 2 := rfl
    omega

theorem readParts_formDataTail (boundary : Bytes) (hb : (13 : UInt8) ∉ boundary)
    (parts : List FormPart) (hparts : ∀ p ∈ parts, p.wellDelimited boundary)
    (fuel : Nat) (hfuel : parts.length < fuel) :
    readParts boundary fuel (formDataTail boundary parts) = some parts := by
  induction parts generalizing fuel with
  | nil =>
    obtain ⟨k, rfl⟩ : ∃ k, fuel = k + 1 := ⟨fuel - 1, by simp at hfuel; omega⟩
    rw [formDataTail, readParts, dropLeading_append]
  | cons p ps ih =>
    obtain ⟨k, rfl⟩ : ∃ k, fuel = k + 1 := ⟨fuel - 1, by simp at hfuel; omega⟩
    have hp : p.wellDelimited boundary := hparts p (List.mem_cons_self _ _)
    have hps : ∀ q ∈ ps, q.wellDelimited boundary := fun q hq => hparts q (List.mem_cons_of_mem _ hq)
    have hk : ps.length < k := by simpa using hfuel
    have htext : formDataTail boundary (p :: ps) =
        crlf ++ (p.headers ++ crlf ++ (p.content ++ delimiter boundary ++ formDataTail boundary ps)) := by
      simp only [formDataTail, List.append_assoc]
    have hdash : dropLeading (ascii "--")
        (crlf ++ (p.headers ++ crlf ++ (p.content ++ delimiter boundary ++ formDataTail boundary ps)))
        = none := dropLeading_head_ne 45 13 [45] _ (by decide)
    have hlen : ∃ j, (p.headers ++ crlf ++ (p.content ++ delimiter boundary
        ++ formDataTail boundary ps)).length = j + 3 := by
      have h1 := headers_length_pos p
      have h2 : crlf.length = 2 := rfl
      refine ⟨(p.headers ++ crlf ++ (p.content ++ delimiter boundary
        ++ formDataTail boundary ps)).length - 3, ?_⟩
      simp only [List.length_append]
      omega
    obtain ⟨j, hj⟩ := hlen
    obtain ⟨lines, hlines, hfind⟩ := readHeaderLines_headers boundary p
      (p.content ++ delimiter boundary ++ formDataTail boundary ps) j hp
    have hdelim : (13 : UInt8) ∉ (10 :: 45 :: 45 :: boundary) := by
      simp only [List.mem_cons, not_or]
      exact ⟨by decide, by decide, by decide, hb⟩
    have hsplit := splitAtFirst_unique 13 (10 :: 45 :: 45 :: boundary) (crlf ++ p.content)
      (formDataTail boundary ps) hdelim (by rw [← delimiter_eq]; exact hp.2.2)
    rw [← delimiter_eq] at hsplit
    have hsplit2 : splitAtFirst (delimiter boundary)
        (crlf ++ (p.content ++ delimiter boundary ++ formDataTail boundary ps))
        = some (crlf ++ p.content, formDataTail boundary ps) := by
      simpa only [List.append_assoc] using hsplit
    have hdrop : (crlf ++ p.content).drop crlf.length = p.content := List.drop_left _ _
    rw [htext, readParts, hdash]
    simp only [dropLeading_append, hj, hlines, hsplit2, hfind, ih hps k hk, hdrop]

/-- The decoder finds the parts of a body in the multipart format again when
boundary and names hold no carriage return and no part holds the delimiter. -/
theorem decodeForm_formData (boundary : Bytes) (hb : (13 : UInt8) ∉ boundary)
    (parts : List FormPart) (hparts : ∀ p ∈ parts, p.wellDelimited boundary) :
    decodeForm (ascii "multipart/form-data; boundary=" ++ boundary) (formData boundary parts)
      = some parts := by
  have hlen : parts.length < (formData boundary parts).length := by
    have := length_formDataTail boundary parts
    simp only [formData, List.length_append]
    omega
  simp only [decodeForm, dropLeading_append]
  have h2 : dropLeading (ascii "--" ++ boundary) (formData boundary parts)
      = some (formDataTail boundary parts) := by
    rw [formData]
    exact dropLeading_append _ _
  simp only [h2]
  exact readParts_formDataTail boundary hb parts hparts _ hlen

/-! ## Lemmas on the commands -/

theorem add_of_read_ok (env : Env) (cmd : runHandler) (tr : List Event) (fileBytes : Bytes)
    (h : readSpec env cmd = (tr, .ok fileBytes)) :
    runHandler.add env cmd =
      match env.HTTPServicePostData (ascii "v1/runs")
          (formData (randomBoundary env) (addParts cmd fileBytes))
          (ascii "multipart/form-data; boundary=" ++ randomBoundary env) with
      | .error err => ⟨tr ++ [addPost env cmd fileBytes], some err⟩
      | .ok responseBytes =>
        ⟨tr ++ [addPost env cmd fileBytes, .PrintJSONBytes responseBytes], none⟩ := by
  have hbuf : ∀ (b T F C : Bytes),
      (Sprintf (ascii "--%s\r\n") [b]
            ++ headerLines [(ascii "Content-Disposition",
                Sprintf (ascii "form-data; name=\"%s\"") [escapeQuotes (ascii "type")])]
            ++ ascii "\r\n" ++ T
          ++ (Sprintf (ascii "\r\n--%s\r\n") [b]
            ++ headerLines [(ascii "Content-Disposition",
                Sprintf (ascii "form-data; name=\"%s\"; filename=\"%s\"")
                  [escapeQuotes (ascii "file"), escapeQuotes F]),
              (ascii "Content-Type", ascii "application/octet-stream")]
            ++ ascii "\r\n")
          ++ C ++ Sprintf (ascii "\r\n--%s--\r\n") [b])
        = formData b [⟨ascii "type", none, T⟩, ⟨ascii "file", some F, C⟩] := by
    intro b T F C
    simp [formData, formDataTail, FormPart.headers, headerLines, delimiter, crlf, Sprintf, ascii]
  simp only [runHandler.add, h, addPost, addParts, ← hbuf]
  simp [Writer.WriteField, Writer.CreateFormField, Writer.CreateFormFile, Writer.CreatePart,
    NewWriter, bytesBuffer, Sink.Write, Writer.partWrite, Writer.Close,
    Writer.FormDataContentType]

theorem sprintf_prefix (n : Bytes) :
    Sprintf (ascii "v1/run/%s/") [n] = ascii "v1/run/" ++ n ++ ascii "/" := rfl

theorem sprintf_runs (s : Bytes) : Sprintf (ascii "v1/runs/%s") [s] = ascii "v1/runs/" ++ s := by
  simp [Sprintf, ascii]

theorem readSpec_trace (env : Env) (cmd : runHandler) :
    (readSpec env cmd).1 = [] ∨
      (readSpec env cmd).1 = [.PrintMessage (ascii "Reading spec file from stdin...")] := by
  unfold readSpec
  split
  · exact Or.inr rfl
  · exact Or.inl rfl

theorem readSpec_trace_filter (env : Env) (cmd : runHandler) (f : Event → Bool)
    (hf : ∀ msg, f (.PrintMessage msg) = false) : (readSpec env cmd).1.filter f = [] := by
  rcases readSpec_trace env cmd with h | h <;> simp [h, hf]


/-- The function `Base` gives the last element of a path: what follows the last
separator, when that is not empty. -/
theorem Base_last_element (dir name : Bytes) (hne : name ≠ []) (hsep : Separator ∉ name) :
    Base (dir ++ [Separator] ++ name) = name := by
  have hpath : dir ++ [Separator] ++ name ≠ [] := by
    intro h
    have := congrArg List.length h
    simp at this
  have hrev : (dir ++ [Separator] ++ name).reverse = name.reverse ++ Separator :: dir.reverse := by
    simp
  have hall : ∀ a ∈ name.reverse, (fun c : UInt8 => c != Separator) a = true := by
    intro a ha
    have ha2 : a ∈ name := List.mem_reverse.1 ha
    have : a ≠ Separator := fun h => hsep (h ▸ ha2)
    simpa using this
  have hdrop : (name.reverse ++ Separator :: dir.reverse).dropWhile (fun c => c == Separator)
      = name.reverse ++ Separator :: dir.reverse := by
    cases hn : name.reverse with
    | nil =>
      have : name = [] := by simpa using hn
      exact absurd this hne
    | cons c cs =>
      have hc : c ≠ Separator := by
        have := hall c (by rw [hn]; simp)
        simpa using this
      have hb : (c == Separator) = false := by simpa using hc
      rw [List.cons_append, List.dropWhile_cons_of_neg (by simp [hb])]
  have htake : (name.reverse ++ Separator :: dir.reverse).takeWhile (fun c => c != Separator)
      = name.reverse := by
    rw [List.takeWhile_append_of_pos hall]
    simp
  simp only [Base, hpath, if_false, hrev, hdrop, List.reverse_reverse, htake, hne]

theorem Base_stdin : Base (ascii "stdin") = ascii "stdin" := by decide


theorem postedForm_after_read (env : Env) (cmd : runHandler) (rest : List Event) :
    postedForm ((readSpec env cmd).1 ++ rest) = postedForm rest := by
  rcases readSpec_trace env cmd with h | h <;> simp [h, postedForm]

/-- A path whose base name holds a line break puts it into the header of the
file part, and the decoder then finds no form in the posted body. -/
theorem line_break_in_file_name :
    postedForm (runHandler.add (exampleEnv (ascii "x") exampleRandom rfl)
      ⟨[], ascii "job", ascii "/tmp/a\r\nb.yml"⟩).trace = none := by
  decide

/-- A spec type that holds the closing delimiter of the boundary drawn: the
decoder reads the field `type` up to it and finds no file part. -/
theorem delimiter_in_spec_type :
    postedForm (runHandler.add (exampleEnv (ascii "x") exampleRandom rfl)
      ⟨[], ascii "job" ++ delimiter (hexBytes exampleRandom) ++ ascii "--", examplePath⟩).trace
      = some [⟨ascii "type", none, ascii "job"⟩] := by
  decide

/-- A spec file that does not exist: `add` returns the wrapped read error and
makes no call at all. -/
theorem add_missing_file :
    runHandler.add (exampleEnv (ascii "x") exampleRandom rfl) ⟨[], ascii "job", missingPath⟩
      = ⟨[], some ⟨ascii ("Failed to read specified run spec file /tmp/missing.yml: "
          ++ "open /tmp/missing.yml: no such file or directory")⟩⟩ := by
  decide

/-- Bytes that do not hold two dashes and the boundary hold no delimiter, also
when a line break stands before them. -/
theorem not_delimiter_of_not_dashBoundary (boundary x : Bytes)
    (h : ¬ dashBoundary boundary <:+: x) : ¬ delimiter boundary <:+: crlf ++ x := by
  rintro ⟨s, t, hst⟩
  apply h
  have hd : delimiter boundary = 13 :: 10 :: dashBoundary boundary := rfl
  have hc : crlf ++ x = 13 :: 10 :: x := rfl
  rw [hd, hc] at hst
  cases s with
  | nil =>
    simp only [List.nil_append, List.cons_append, List.cons.injEq, true_and] at hst
    exact ⟨[], t, by simpa using hst⟩
  | cons a s =>
    cases s with
    | nil =>
      simp only [List.cons_append, List.nil_append, List.cons.injEq] at hst
      exact absurd hst.2.1 (by decide)
    | cons a2 s3 =>
      simp only [List.cons_append, List.cons.injEq] at hst
      exact ⟨s3 ++ [13, 10], t, by rw [← hst.2.2]; simp⟩

theorem add_read_error (env : Env) (cmd : runHandler) (tr : List Event) (e : GoError)
    (h : readSpec env cmd = (tr, .error e)) :
    runHandler.add env cmd = ⟨tr, some e⟩ ∧ tr.filter Event.isTransport = [] := by
  have htr := readSpec_trace_filter env cmd Event.isTransport (fun _ => rfl)
  rw [h] at htr
  exact ⟨by simp only [runHandler.add, h], htr⟩

/-- On the `bytes.Buffer` of `add` none of the four multipart steps fails, and
after the last one the buffer holds the two parts in the multipart format. -/
theorem add_steps_succeed (env : Env) (cmd : runHandler) (fileBytes : Bytes) :
    (addFieldStep env cmd).2 = none ∧ (addFileStep env cmd).2 = none ∧
      (addBytesStep env cmd fileBytes).2 = none ∧ (addCloseStep env cmd fileBytes).2 = none ∧
      (addCloseStep env cmd fileBytes).1.w.buf
        = formData (randomBoundary env) (addParts cmd fileBytes) ∧
      (addCloseStep env cmd fileBytes).1.FormDataContentType
        = ascii "multipart/form-data; boundary=" ++ randomBoundary env := by
  refine ⟨?_, ?_, ?_, ?_, ?_, ?_⟩ <;>
    simp [addFieldStep, addFileStep, addBytesStep, addCloseStep, Writer.WriteField,
      Writer.CreateFormField, Writer.CreateFormFile, Writer.CreatePart, NewWriter, bytesBuffer,
      Sink.Write, Writer.partWrite, Writer.Close, Writer.FormDataContentType, formData,
      formDataTail, addParts, FormPart.headers, headerLines, delimiter, crlf, Sprintf, ascii]

theorem add_post_filter (env : Env) (cmd : runHandler) (tr : List Event) (fileBytes : Bytes)
    (h : readSpec env cmd = (tr, .ok fileBytes)) :
    (runHandler.add env cmd).trace.filter Event.isPost = [addPost env cmd fileBytes] := by
  have htr := readSpec_trace_filter env cmd Event.isPost (fun _ => rfl)
  rw [h] at htr
  rw [add_of_read_ok env cmd tr fileBytes h]
  split <;> simp [List.filter_append, htr, addPost, Event.isPost]

/-- The form that `add` posts is read back by the decoder as the two parts,
when neither the spec type nor the content holds two dashes followed by the
boundary drawn and the base name of the path holds no line break. -/
theorem add_decodes (env : Env) (cmd : runHandler) (tr : List Event) (fileBytes : Bytes)
    (h : readSpec env cmd = (tr, .ok fileBytes))
    (hT : ¬ dashBoundary (randomBoundary env) <:+: cmd.specType)
    (hC : ¬ dashBoundary (randomBoundary env) <:+: fileBytes)
    (hcr : (13 : UInt8) ∉ Base cmd.specFile) (hlf : (10 : UInt8) ∉ Base cmd.specFile) :
    postedForm (runHandler.add env cmd).trace = some (addParts cmd fileBytes) := by
  have htr : tr = (readSpec env cmd).1 := by rw [h]
  have hparts : ∀ p ∈ addParts cmd fileBytes, p.wellDelimited (randomBoundary env) := by
    intro p hp
    simp only [addParts, List.mem_cons, List.mem_singleton, List.not_mem_nil, or_false] at hp
    have hname1 : (13 : UInt8) ∉ ascii "type" ∧ (10 : UInt8) ∉ ascii "type" := by decide
    have hname2 : (13 : UInt8) ∉ ascii "file" ∧ (10 : UInt8) ∉ ascii "file" := by decide
    rcases hp with rfl | rfl
    · exact ⟨hname1, ⟨fun f hf => by simp at hf, not_delimiter_of_not_dashBoundary _ _ hT⟩⟩
    · refine ⟨hname2, ⟨fun f hf => ?_, not_delimiter_of_not_dashBoundary _ _ hC⟩⟩
      simp only [Option.some.injEq] at hf
      rw [← hf]
      exact ⟨hcr, hlf⟩
  have hdec := decodeForm_formData (randomBoundary env) (not_mem_hexBytes env.random)
    (addParts cmd fileBytes) hparts
  rw [add_of_read_ok env cmd tr fileBytes h]
  split
  · simp only [htr, postedForm_after_read, addPost, postedForm, hdec]
  · simp only [htr, postedForm_after_read, addPost, postedForm, hdec]

/-- A spec that starts with the closing boundary line: the decoder ends the
file part at the empty line and reads a part without bytes. -/
theorem leading_boundary_in_spec :
    postedForm (runHandler.add (exampleEnv leadingBoundarySpec exampleRandom rfl)
      ⟨[], ascii "job", examplePath⟩).trace
      = some [⟨ascii "type", none, ascii "job"⟩, ⟨ascii "file", some (ascii "spec.yml"), []⟩] := by
  decide

/-! ## The properties of the specification -/

/-- C1: for every non-empty run identifier `n`, `getPrefix` on a `runFlag` named
`n` returns exactly `v1/run/` followed by `n` verbatim and a slash, and does not
take the exit path. -/
theorem getPrefix_of_nonempty (n : Bytes) (h : n ≠ []) :
    runFlag.getPrefix ⟨n⟩ = .returned (ascii "v1/run/" ++ n ++ ascii "/") ∧
      ∀ status stdout, runFlag.getPrefix ⟨n⟩ ≠ .exited status stdout := by
  have hlen : (n.length == 0) = false := by
    cases n with
    | nil => exact absurd rfl h
    | cons c cs => rfl
  have hval : runFlag.getPrefix ⟨n⟩ = .returned (ascii "v1/run/" ++ n ++ ascii "/") := by
    simp only [runFlag.getPrefix, hlen, sprintf_prefix]
    rfl
  refine ⟨hval, ?_⟩
  intro status stdout hex
  rw [hval] at hex
  cases hex

/-- The run name `myrun` as an instance of C1. -/
theorem getPrefix_of_nonempty_witness :
    ascii "myrun" ≠ [] ∧
      (runFlag.getPrefix ⟨ascii "myrun"⟩ = .returned (ascii "v1/run/" ++ ascii "myrun" ++ ascii "/") ∧
        ∀ status stdout, runFlag.getPrefix ⟨ascii "myrun"⟩ ≠ .exited status stdout) :=
  ⟨by decide, getPrefix_of_nonempty (ascii "myrun") (by decide)⟩

/-- C2: `getPrefix` exits, with status 1, exactly when the stored name is empty,
and returns a prefix exactly when it is not; no call does both and every call
does one of the two. -/
theorem getPrefix_exits_iff_empty (r : runFlag) :
    ((∃ stdout, r.getPrefix = .exited 1 stdout) ↔ r.name = []) ∧
      ((∃ p, r.getPrefix = .returned p) ↔ r.name ≠ []) ∧
      (∀ status stdout, r.getPrefix = .exited status stdout → status = 1 ∧ r.name = []) := by
  obtain ⟨name⟩ := r
  cases name with
  | nil =>
    refine ⟨⟨fun _ => rfl, fun _ => ⟨_, rfl⟩⟩, ⟨?_, fun h => absurd rfl h⟩, ?_⟩
    · rintro ⟨p, hp⟩
      simp [runFlag.getPrefix] at hp
    · intro status stdout hs
      simp [runFlag.getPrefix] at hs
      exact ⟨hs.1.symm, rfl⟩
  | cons c cs =>
    refine ⟨⟨?_, fun h => by cases h⟩, ⟨fun _ => by simp, fun _ => ⟨_, rfl⟩⟩, ?_⟩
    · rintro ⟨stdout, hs⟩
      simp [runFlag.getPrefix] at hs
    · intro status stdout hs
      simp [runFlag.getPrefix] at hs

/-- C3 as stated fails: a spec file that holds the closing delimiter of the
boundary drawn is read back by the decoder as the single byte before it. -/
theorem add_roundtrip_counterexample :
    readSpec (exampleEnv collidingSpec exampleRandom rfl) ⟨[], ascii "job", examplePath⟩
        = ([], .ok collidingSpec) ∧
      postedForm (runHandler.add (exampleEnv collidingSpec exampleRandom rfl)
          ⟨[], ascii "job", examplePath⟩).trace
        = some [⟨ascii "type", none, ascii "job"⟩, ⟨ascii "file", some (ascii "spec.yml"), ascii "a"⟩] ∧
      ascii "a" ≠ collidingSpec ∧
      postedForm (runHandler.add (exampleEnv collidingSpec exampleRandom rfl)
          ⟨[], ascii "job", examplePath⟩).trace
        ≠ some [⟨ascii "type", none, ascii "job"⟩,
            ⟨ascii "file", some (ascii "spec.yml"), collidingSpec⟩] := by
  refine ⟨rfl, ?_, ?_, ?_⟩
  · decide
  · decide
  · decide

/-- C3, amended: for every spec type `T` and byte content `C` that do not hold
two dashes followed by the boundary drawn, and a path whose base name holds no
carriage return and no line feed, the body that `add` posts, split by the
decoder with the boundary of the posted content type, gives exactly `T` as the
field `type` and exactly `C` as the bytes of the part `file`. -/
theorem add_form_decodes (env : Env) (cmd : runHandler) (tr : List Event) (fileBytes : Bytes)
    (h : readSpec env cmd = (tr, .ok fileBytes))
    (hT : ¬ dashBoundary (randomBoundary env) <:+: cmd.specType)
    (hC : ¬ dashBoundary (randomBoundary env) <:+: fileBytes)
    (hcr : (13 : UInt8) ∉ Base cmd.specFile) (hlf : (10 : UInt8) ∉ Base cmd.specFile) :
    postedForm (runHandler.add env cmd).trace
      = some [⟨ascii "type", none, cmd.specType⟩,
          ⟨ascii "file", some (Base cmd.specFile), fileBytes⟩] :=
  add_decodes env cmd tr fileBytes h hT hC hcr hlf

/-- A spec of one line, read from a file, as an instance of the amended C3. -/
theorem add_form_decodes_witness :
    (readSpec (exampleEnv (ascii "name: demo\r\n") exampleRandom rfl)
          ⟨[], ascii "job", examplePath⟩ = ([], .ok (ascii "name: demo\r\n")) ∧
        ¬ dashBoundary (randomBoundary (exampleEnv (ascii "name: demo\r\n") exampleRandom rfl))
          <:+: ascii "job" ∧
        ¬ dashBoundary (randomBoundary (exampleEnv (ascii "name: demo\r\n") exampleRandom rfl))
          <:+: ascii "name: demo\r\n" ∧
        (13 : UInt8) ∉ Base examplePath ∧ (10 : UInt8) ∉ Base examplePath) ∧
      postedForm (runHandler.add (exampleEnv (ascii "name: demo\r\n") exampleRandom rfl)
          ⟨[], ascii "job", examplePath⟩).trace
        = some [⟨ascii "type", none, ascii "job"⟩,
            ⟨ascii "file", some (Base examplePath), ascii "name: demo\r\n"⟩] :=
  ⟨⟨rfl, by decide, by decide, by decide, by decide⟩,
    add_form_decodes (exampleEnv (ascii "name: demo\r\n") exampleRandom rfl)
      ⟨[], ascii "job", examplePath⟩ [] (ascii "name: demo\r\n") rfl
      (by decide) (by decide) (by decide) (by decide)⟩

/-- C4: `add` fails fast. When reading the spec fails, `add` returns the
error and makes no transport call. When reading succeeds, none of the four
multipart steps fails on the buffer of `add`, and the one call of
`HTTPServicePostData` carries the buffer as it is after `Close`. So whenever a
multipart step fails `add` returns an error without a POST (no input makes one
fail), and a POST is only made for a spec that was read and a payload that was
built and closed. -/
theorem add_fails_fast (env : Env) (cmd : runHandler) :
    (∀ tr e, readSpec env cmd = (tr, .error e) →
        runHandler.add env cmd = ⟨tr, some e⟩ ∧
          (runHandler.add env cmd).trace.filter Event.isTransport = []) ∧
      (∀ tr fileBytes, readSpec env cmd = (tr, .ok fileBytes) →
        ((addFieldStep env cmd).2 = none ∧ (addFileStep env cmd).2 = none ∧
            (addBytesStep env cmd fileBytes).2 = none ∧
            (addCloseStep env cmd fileBytes).2 = none) ∧
          (runHandler.add env cmd).trace.filter Event.isPost
            = [.HTTPServicePostData (ascii "v1/runs") (addCloseStep env cmd fileBytes).1.w.buf
                (addCloseStep env cmd fileBytes).1.FormDataContentType]) ∧
      (∀ tr fileBytes, readSpec env cmd = (tr, .ok fileBytes) →
        ((addFieldStep env cmd).2 ≠ none ∨ (addFileStep env cmd).2 ≠ none ∨
            (addBytesStep env cmd fileBytes).2 ≠ none ∨
            (addCloseStep env cmd fileBytes).2 ≠ none) →
        (runHandler.add env cmd).err ≠ none ∧
          (runHandler.add env cmd).trace.filter Event.isPost = []) ∧
      ((runHandler.add env cmd).trace.filter Event.isPost ≠ [] →
        ∃ tr fileBytes, readSpec env cmd = (tr, .ok fileBytes)) := by
  refine ⟨?_, ?_, ?_, ?_⟩
  · intro tr e h
    obtain ⟨h1, h2⟩ := add_read_error env cmd tr e h
    rw [h1]
    exact ⟨rfl, h2⟩
  · intro tr fileBytes h
    obtain ⟨s1, s2, s3, s4, hbuf, hct⟩ := add_steps_succeed env cmd fileBytes
    refine ⟨⟨s1, s2, s3, s4⟩, ?_⟩
    rw [add_post_filter env cmd tr fileBytes h, hbuf, hct]
    rfl
  · intro tr fileBytes _ hfail
    obtain ⟨s1, s2, s3, s4, -, -⟩ := add_steps_succeed env cmd fileBytes
    rcases hfail with hf | hf | hf | hf
    · exact absurd s1 hf
    · exact absurd s2 hf
    · exact absurd s3 hf
    · exact absurd s4 hf
  · intro hpost
    rcases hread : readSpec env cmd with ⟨tr, res⟩
    cases res with
    | ok fileBytes => exact ⟨tr, fileBytes, rfl⟩
    | error e =>
      exfalso
      apply hpost
      obtain ⟨h1, h2⟩ := add_read_error env cmd tr e hread
      have h3 := readSpec_trace_filter env cmd Event.isPost (fun _ => rfl)
      rw [hread] at h3
      rw [h1]
      exact h3

/-- A missing spec file and a spec file of one byte as instances of C4. -/
theorem add_fails_fast_witness :
    (runHandler.add (exampleEnv (ascii "x") exampleRandom rfl) ⟨[], ascii "job", missingPath⟩
        = ⟨[], some (Errorf (ascii "Failed to read specified run spec file %s: %s")
            [missingPath, ascii "open /tmp/missing.yml: no such file or directory"])⟩ ∧
      (runHandler.add (exampleEnv (ascii "x") exampleRandom rfl)
          ⟨[], ascii "job", missingPath⟩).trace.filter Event.isTransport = []) ∧
      (runHandler.add (exampleEnv (ascii "x") exampleRandom rfl)
          ⟨[], ascii "job", examplePath⟩).trace.filter Event.isPost
        = [.HTTPServicePostData (ascii "v1/runs")
            (addCloseStep (exampleEnv (ascii "x") exampleRandom rfl)
              ⟨[], ascii "job", examplePath⟩ (ascii "x")).1.w.buf
            (addCloseStep (exampleEnv (ascii "x") exampleRandom rfl)
              ⟨[], ascii "job", examplePath⟩ (ascii "x")).1.FormDataContentType] :=
  ⟨(add_fails_fast (exampleEnv (ascii "x") exampleRandom rfl) ⟨[], ascii "job", missingPath⟩).1
      [] _ rfl,
    ((add_fails_fast (exampleEnv (ascii "x") exampleRandom rfl)
      ⟨[], ascii "job", examplePath⟩).2.1 [] (ascii "x") rfl).2⟩

/-- C5: for a spec that was read, a failure of any of the four multipart steps
makes `add` return an error and send nothing: a failed creation of the file
part, write of the file bytes or close is returned wrapped with the message of
its step. On the `bytes.Buffer` of `add` none of the four steps fails, which
is also why the unchecked result of writing the field `type` (main.go:122)
never hides an error. -/
theorem add_wraps_step_errors (env : Env) (cmd : runHandler) (tr : List Event)
    (fileBytes : Bytes) (h : readSpec env cmd = (tr, .ok fileBytes)) :
    (∀ e, (addFieldStep env cmd).2 = some e →
        (runHandler.add env cmd).err ≠ none ∧
          (runHandler.add env cmd).trace.filter Event.isTransport = []) ∧
      (∀ e, (addFileStep env cmd).2 = some e →
        runHandler.add env cmd
          = ⟨tr, some (Errorf (ascii "Failed to create form: %s") [e.msg])⟩) ∧
      (∀ e, (addFileStep env cmd).2 = none → (addBytesStep env cmd fileBytes).2 = some e →
        runHandler.add env cmd
          = ⟨tr, some (Errorf (ascii "Failed to store form data: %s") [e.msg])⟩) ∧
      (∀ e, (addFileStep env cmd).2 = none → (addBytesStep env cmd fileBytes).2 = none →
        (addCloseStep env cmd fileBytes).2 = some e →
        runHandler.add env cmd
          = ⟨tr, some (Errorf (ascii "Failed to write form data: %s") [e.msg])⟩) ∧
      ((addFieldStep env cmd).2 = none ∧ (addFileStep env cmd).2 = none ∧
        (addBytesStep env cmd fileBytes).2 = none ∧
        (addCloseStep env cmd fileBytes).2 = none) := by
  obtain ⟨s1, s2, s3, s4, -, -⟩ := add_steps_succeed env cmd fileBytes
  refine ⟨?_, ?_, ?_, ?_, ⟨s1, s2, s3, s4⟩⟩
  · intro e he
    rw [s1] at he
    cases he
  · intro e he
    have hpair : (addFieldStep env cmd).1.CreateFormFile (ascii "file") (Base cmd.specFile)
        = ((addFileStep env cmd).1, some e) := Prod.ext rfl he
    simp only [addFieldStep] at hpair
    simp only [runHandler.add, h, hpair]
  · intro e h2 he
    have hpair2 : (addFieldStep env cmd).1.CreateFormFile (ascii "file") (Base cmd.specFile)
        = ((addFileStep env cmd).1, none) := Prod.ext rfl h2
    have hpair3 : (addFileStep env cmd).1.partWrite fileBytes
        = ((addBytesStep env cmd fileBytes).1, some e) := Prod.ext rfl he
    simp only [addFieldStep] at hpair2
    simp only [runHandler.add, h, hpair2]
    simp only [hpair3]
  · intro e h2 h3 he
    have hpair2 : (addFieldStep env cmd).1.CreateFormFile (ascii "file") (Base cmd.specFile)
        = ((addFileStep env cmd).1, none) := Prod.ext rfl h2
    have hpair3 : (addFileStep env cmd).1.partWrite fileBytes
        = ((addBytesStep env cmd fileBytes).1, none) := Prod.ext rfl h3
    have hpair4 : (addBytesStep env cmd fileBytes).1.Close
        = ((addCloseStep env cmd fileBytes).1, some e) := Prod.ext rfl he
    simp only [addFieldStep] at hpair2
    simp only [runHandler.add, h, hpair2]
    simp only [hpair3]
    simp only [hpair4]

/-- A spec file of one byte as an instance of C5. -/
theorem add_wraps_step_errors_witness :
    readSpec (exampleEnv (ascii "x") exampleRandom rfl) ⟨[], ascii "job", examplePath⟩
        = ([], .ok (ascii "x")) ∧
      ((addFieldStep (exampleEnv (ascii "x") exampleRandom rfl)
            ⟨[], ascii "job", examplePath⟩).2 = none ∧
        (addFileStep (exampleEnv (ascii "x") exampleRandom rfl)
            ⟨[], ascii "job", examplePath⟩).2 = none ∧
        (addBytesStep (exampleEnv (ascii "x") exampleRandom rfl)
            ⟨[], ascii "job", examplePath⟩ (ascii "x")).2 = none ∧
        (addCloseStep (exampleEnv (ascii "x") exampleRandom rfl)
            ⟨[], ascii "job", examplePath⟩ (ascii "x")).2 = none) :=
  ⟨rfl, (add_wraps_step_errors (exampleEnv (ascii "x") exampleRandom rfl)
    ⟨[], ascii "job", examplePath⟩ [] (ascii "x") rfl).2.2.2.2⟩

/-- C6: for every run name `s`, `delete` calls the transport helper exactly
once, as a DELETE on `v1/runs/` followed by `s` verbatim, and on success hands
the response bytes unchanged to the JSON printer and returns no error. -/
theorem delete_one_call (env : Env) (cmd : runHandler) :
    (runHandler.delete env cmd).trace.filter Event.isTransport
        = [.HTTPServiceDelete (ascii "v1/runs/" ++ cmd.run)] ∧
      ∀ responseBytes, env.HTTPServiceDelete (ascii "v1/runs/" ++ cmd.run) = .ok responseBytes →
        runHandler.delete env cmd =
          ⟨[.HTTPServiceDelete (ascii "v1/runs/" ++ cmd.run), .PrintJSONBytes responseBytes],
            none⟩ := by
  constructor
  · simp only [runHandler.delete, sprintf_runs]
    split <;> simp [Event.isTransport]
  · intro responseBytes h
    simp only [runHandler.delete, sprintf_runs, h]

/-- The run name `myrun` with a helper that answers `[]`, as an instance of C6. -/
theorem delete_one_call_witness :
    (exampleEnv [] exampleRandom rfl).HTTPServiceDelete (ascii "v1/runs/" ++ ascii "myrun")
        = .ok (ascii "[]") ∧
      runHandler.delete (exampleEnv [] exampleRandom rfl) ⟨ascii "myrun", [], []⟩ =
        ⟨[.HTTPServiceDelete (ascii "v1/runs/" ++ ascii "myrun"), .PrintJSONBytes (ascii "[]")],
          none⟩ :=
  ⟨rfl, (delete_one_call (exampleEnv [] exampleRandom rfl) ⟨ascii "myrun", [], []⟩).2
    (ascii "[]") rfl⟩

/-- C7: when the transport helper returns an error `e`, each of `list`, `add`
(for a spec it has read) and `delete` returns exactly `e`, makes that one
transport call and no other, and prints no response. -/
theorem transport_error_passed_through (env : Env) (cmd : runHandler) (e : GoError) :
    (env.HTTPServiceGet (ascii "v1/runs") = .error e →
        runHandler.list env cmd = ⟨[.HTTPServiceGet (ascii "v1/runs")], some e⟩) ∧
      (env.HTTPServiceDelete (ascii "v1/runs/" ++ cmd.run) = .error e →
        runHandler.delete env cmd
          = ⟨[.HTTPServiceDelete (ascii "v1/runs/" ++ cmd.run)], some e⟩) ∧
      (∀ tr fileBytes, readSpec env cmd = (tr, .ok fileBytes) →
        env.HTTPServicePostData (ascii "v1/runs")
            (formData (randomBoundary env) (addParts cmd fileBytes))
            (ascii "multipart/form-data; boundary=" ++ randomBoundary env) = .error e →
        (runHandler.add env cmd).err = some e ∧
          (runHandler.add env cmd).trace.filter Event.isTransport = [addPost env cmd fileBytes] ∧
          (runHandler.add env cmd).trace.filter Event.isPrintJSON = []) := by
  refine ⟨?_, ?_, ?_⟩
  · intro h
    simp only [runHandler.list, h]
  · intro h
    simp only [runHandler.delete, sprintf_runs, h]
  · intro tr fileBytes hread hpost
    have htr1 := readSpec_trace_filter env cmd Event.isTransport (fun _ => rfl)
    have htr2 := readSpec_trace_filter env cmd Event.isPrintJSON (fun _ => rfl)
    rw [hread] at htr1 htr2
    rw [add_of_read_ok env cmd tr fileBytes hread, hpost]
    simp only [List.filter_append, htr1, htr2]
    simp [addPost, Event.isTransport, Event.isPrintJSON]

/-- The three commands against helpers that refuse the connection, as an
instance of C7. -/
theorem transport_error_passed_through_witness :
    runHandler.list (downEnv (ascii "x") exampleRandom rfl) ⟨ascii "myrun", ascii "job", examplePath⟩
        = ⟨[.HTTPServiceGet (ascii "v1/runs")], some connectionRefused⟩ ∧
      runHandler.delete (downEnv (ascii "x") exampleRandom rfl)
          ⟨ascii "myrun", ascii "job", examplePath⟩
        = ⟨[.HTTPServiceDelete (ascii "v1/runs/" ++ ascii "myrun")], some connectionRefused⟩ ∧
      (runHandler.add (downEnv (ascii "x") exampleRandom rfl)
          ⟨ascii "myrun", ascii "job", examplePath⟩).err = some connectionRefused ∧
      (runHandler.add (downEnv (ascii "x") exampleRandom rfl)
          ⟨ascii "myrun", ascii "job", examplePath⟩).trace.filter Event.isTransport
        = [addPost (downEnv (ascii "x") exampleRandom rfl)
            ⟨ascii "myrun", ascii "job", examplePath⟩ (ascii "x")] ∧
      (runHandler.add (downEnv (ascii "x") exampleRandom rfl)
          ⟨ascii "myrun", ascii "job", examplePath⟩).trace.filter Event.isPrintJSON = [] :=
  ⟨(transport_error_passed_through (downEnv (ascii "x") exampleRandom rfl)
      ⟨ascii "myrun", ascii "job", examplePath⟩ connectionRefused).1 rfl,
    (transport_error_passed_through (downEnv (ascii "x") exampleRandom rfl)
      ⟨ascii "myrun", ascii "job", examplePath⟩ connectionRefused).2.1 rfl,
    (transport_error_passed_through (downEnv (ascii "x") exampleRandom rfl)
      ⟨ascii "myrun", ascii "job", examplePath⟩ connectionRefused).2.2 [] (ascii "x") rfl rfl⟩

/-- C8: the supplier installed by `main` is shared, not copied: for any two of
the run-scoped query objects, once the name of the run flag is set to a
non-empty `n`, either supplier returns `v1/run/` followed by `n` and a slash,
whatever the name was when the supplier was installed (it was empty then, and
a call at that time exits), and the two suppliers agree on every memory. -/
theorem prefix_supplier_shared (name : Addr) (heap : Heap) (n : Bytes) (hn : n ≠ [])
    (q1 q2 : Queries) (h1 : q1 ∈ (mainQueries name).scoped) (h2 : q2 ∈ (mainQueries name).scoped) :
    ∃ cb1 cb2, q1.PrefixCb = some cb1 ∧ q2.PrefixCb = some cb2 ∧
      cb1 (StringVar name n (declareName name heap))
        = .returned (ascii "v1/run/" ++ n ++ ascii "/") ∧
      cb2 (StringVar name n (declareName name heap))
        = .returned (ascii "v1/run/" ++ n ++ ascii "/") ∧
      (∃ stdout, cb1 (declareName name heap) = .exited 1 stdout) ∧
      (∃ stdout, cb2 (declareName name heap) = .exited 1 stdout) ∧
      ∀ h : Heap, cb1 h = cb2 h := by
  have hq : ∀ q ∈ (mainQueries name).scoped, q.PrefixCb = some (boundGetPrefix name) := by
    intro q hq
    simp only [MainQueries.scoped, mainQueries, List.mem_cons, List.mem_singleton,
      List.not_mem_nil, or_false] at hq
    rcases hq with h | h | h | h | h <;> rw [h]
  have hset : boundGetPrefix name (StringVar name n (declareName name heap))
      = .returned (ascii "v1/run/" ++ n ++ ascii "/") := by
    have hlen : (n.length == 0) = false := by
      cases n with
      | nil => exact absurd rfl hn
      | cons c cs => rfl
    simp [boundGetPrefix, StringVar, runFlag.getPrefix, hlen, sprintf_prefix]
  have hinit : ∃ stdout, boundGetPrefix name (declareName name heap) = .exited 1 stdout :=
    ⟨_, by simp [boundGetPrefix, declareName, runFlag.getPrefix]; rfl⟩
  exact ⟨_, _, hq q1 h1, hq q2 h2, hset, hset, hinit, hinit, fun _ => rfl⟩

/-- The plan and pod queries with the run name `myrun` as an instance of C8. -/
theorem prefix_supplier_shared_witness :
    (ascii "myrun" ≠ [] ∧ (mainQueries 0).planQueries ∈ (mainQueries 0).scoped ∧
        (mainQueries 0).podQueries ∈ (mainQueries 0).scoped) ∧
      ∃ cb1 cb2, (mainQueries 0).planQueries.PrefixCb = some cb1 ∧
        (mainQueries 0).podQueries.PrefixCb = some cb2 ∧
        cb1 (StringVar 0 (ascii "myrun") (declareName 0 (fun _ => ⟨ascii "old"⟩)))
          = .returned (ascii "v1/run/" ++ ascii "myrun" ++ ascii "/") ∧
        cb2 (StringVar 0 (ascii "myrun") (declareName 0 (fun _ => ⟨ascii "old"⟩)))
          = .returned (ascii "v1/run/" ++ ascii "myrun" ++ ascii "/") ∧
        (∃ stdout, cb1 (declareName 0 (fun _ => ⟨ascii "old"⟩)) = .exited 1 stdout) ∧
        (∃ stdout, cb2 (declareName 0 (fun _ => ⟨ascii "old"⟩)) = .exited 1 stdout) ∧
        ∀ h : Heap, cb1 h = cb2 h :=
  ⟨⟨by decide, by simp [MainQueries.scoped], by simp [MainQueries.scoped]⟩,
    prefix_supplier_shared 0 (fun _ => ⟨ascii "old"⟩) (ascii "myrun") (by decide)
      (mainQueries 0).planQueries (mainQueries 0).podQueries
      (by simp [MainQueries.scoped]) (by simp [MainQueries.scoped])⟩

/-- C9 as stated fails: the same spec, posted from standard input under a
boundary whose delimiter it holds and from a file under another boundary,
decodes to two different file contents. -/
theorem stdin_and_file_decode_apart :
    (exampleEnv collidingSpec exampleRandom rfl).ReadAllStdin = .ok collidingSpec ∧
      (exampleEnv collidingSpec otherRandom rfl).ReadFile examplePath = .ok collidingSpec ∧
      postedForm (runHandler.add (exampleEnv collidingSpec exampleRandom rfl)
          ⟨[], ascii "job", ascii "stdin"⟩).trace
        = some [⟨ascii "type", none, ascii "job"⟩,
            ⟨ascii "file", some (ascii "stdin"), ascii "a"⟩] ∧
      postedForm (runHandler.add (exampleEnv collidingSpec otherRandom rfl)
          ⟨[], ascii "job", examplePath⟩).trace
        = some [⟨ascii "type", none, ascii "job"⟩,
            ⟨ascii "file", some (ascii "spec.yml"), collidingSpec⟩] ∧
      ascii "a" ≠ collidingSpec := by
  refine ⟨rfl, rfl, ?_, ?_, ?_⟩
  · decide
  · decide
  · decide

/-- C9, amended: for every spec type `T` and byte content `C`, `add` reading
`C` from standard input and `add` reading `C` from a file build payloads that
both decode to the field `type` with `T` and the part `file` with `C`, and
differ only in the file name (`stdin` against the base name of the path),
provided that neither `T` nor `C` holds two dashes followed by the boundary
drawn in either run, and that the base name of the path holds no carriage
return and no line feed. -/
theorem stdin_and_file_decode_alike (env1 env2 : Env) (run1 run2 T path C : Bytes)
    (hpath : path ≠ ascii "stdin")
    (hstdin : env1.ReadAllStdin = .ok C) (hfile : env2.ReadFile path = .ok C)
    (hT1 : ¬ dashBoundary (randomBoundary env1) <:+: T)
    (hC1 : ¬ dashBoundary (randomBoundary env1) <:+: C)
    (hT2 : ¬ dashBoundary (randomBoundary env2) <:+: T)
    (hC2 : ¬ dashBoundary (randomBoundary env2) <:+: C)
    (hcr : (13 : UInt8) ∉ Base path) (hlf : (10 : UInt8) ∉ Base path) :
    postedForm (runHandler.add env1 ⟨run1, T, ascii "stdin"⟩).trace
        = some [⟨ascii "type", none, T⟩, ⟨ascii "file", some (ascii "stdin"), C⟩] ∧
      postedForm (runHandler.add env2 ⟨run2, T, path⟩).trace
        = some [⟨ascii "type", none, T⟩, ⟨ascii "file", some (Base path), C⟩] := by
  have hr1 : readSpec env1 ⟨run1, T, ascii "stdin"⟩
      = ([.PrintMessage (ascii "Reading spec file from stdin...")], .ok C) := by
    simp only [readSpec, hstdin, if_true]
  have hr2 : readSpec env2 ⟨run2, T, path⟩ = ([], .ok C) := by
    simp only [readSpec, hfile, hpath, if_false]
  have h1 := add_decodes env1 ⟨run1, T, ascii "stdin"⟩ _ C hr1 hT1 hC1
    (by rw [Base_stdin]; decide) (by rw [Base_stdin]; decide)
  have h2 := add_decodes env2 ⟨run2, T, path⟩ _ C hr2 hT2 hC2 hcr hlf
  simp only [addParts, Base_stdin] at h1 h2
  exact ⟨h1, h2⟩

/-- A spec of one line, read from standard input under one boundary and from a
file under another, as an instance of the amended C9. -/
theorem stdin_and_file_decode_alike_witness :
    (examplePath ≠ ascii "stdin" ∧
        (exampleEnv (ascii "name: demo\r\n") exampleRandom rfl).ReadAllStdin
          = .ok (ascii "name: demo\r\n") ∧
        (exampleEnv (ascii "name: demo\r\n") otherRandom rfl).ReadFile examplePath
          = .ok (ascii "name: demo\r\n") ∧
        ¬ dashBoundary (randomBoundary (exampleEnv (ascii "name: demo\r\n") exampleRandom rfl))
          <:+: ascii "job" ∧
        ¬ dashBoundary (randomBoundary (exampleEnv (ascii "name: demo\r\n") exampleRandom rfl))
          <:+: ascii "name: demo\r\n" ∧
        ¬ dashBoundary (randomBoundary (exampleEnv (ascii "name: demo\r\n") otherRandom rfl))
          <:+: ascii "job" ∧
        ¬ dashBoundary (randomBoundary (exampleEnv (ascii "name: demo\r\n") otherRandom rfl))
          <:+: ascii "name: demo\r\n" ∧
        (13 : UInt8) ∉ Base examplePath ∧ (10 : UInt8) ∉ Base examplePath) ∧
      (postedForm (runHandler.add (exampleEnv (ascii "name: demo\r\n") exampleRandom rfl)
            ⟨[], ascii "job", ascii "stdin"⟩).trace
          = some [⟨ascii "type", none, ascii "job"⟩,
              ⟨ascii "file", some (ascii "stdin"), ascii "name: demo\r\n"⟩] ∧
        postedForm (runHandler.add (exampleEnv (ascii "name: demo\r\n") otherRandom rfl)
            ⟨[], ascii "job", examplePath⟩).trace
          = some [⟨ascii "type", none, ascii "job"⟩,
              ⟨ascii "file", some (Base examplePath), ascii "name: demo\r\n"⟩]) :=
  ⟨⟨by decide, rfl, rfl, by decide, by decide, by decide, by decide, by decide, by decide⟩,
    stdin_and_file_decode_alike (exampleEnv (ascii "name: demo\r\n") exampleRandom rfl)
      (exampleEnv (ascii "name: demo\r\n") otherRandom rfl) [] [] (ascii "job") examplePath
      (ascii "name: demo\r\n") (by decide) rfl rfl (by decide) (by decide) (by decide)
      (by decide) (by decide) (by decide)⟩

/-- C10 as stated fails: a spec file that holds a delimiter of the boundary
drawn and a header after it is read back by the decoder as three parts, with
the single byte before the delimiter as the bytes of the file part. -/
theorem add_body_three_parts :
    readSpec (exampleEnv threePartSpec exampleRandom rfl) ⟨[], ascii "job", examplePath⟩
        = ([], .ok threePartSpec) ∧
      postedForm (runHandler.add (exampleEnv threePartSpec exampleRandom rfl)
          ⟨[], ascii "job", examplePath⟩).trace
        = some [⟨ascii "type", none, ascii "job"⟩,
            ⟨ascii "file", some (ascii "spec.yml"), ascii "x"⟩,
            ⟨ascii "extra", none, ascii "y"⟩] ∧
      ascii "x" ≠ threePartSpec := by
  refine ⟨rfl, ?_, ?_⟩
  · decide
  · decide

/-- C10, amended: for every spec type and spec path whose reading succeeds,
where neither the spec type nor the content read holds two dashes followed by
the boundary drawn, and the base name of the path holds no carriage return and
no line feed, the body that `add` posts holds exactly two parts, in this
order, on the wire and as the decoder reads it: the form field `type` with the
spec type, and the file part `file` whose file name is the base name of the
path and whose bytes are the content read. The base name of the path `stdin` is `stdin`, and the base name of a
path with a non-empty last element is that element. -/
theorem add_posts_two_parts (env : Env) (cmd : runHandler) (tr : List Event) (fileBytes : Bytes)
    (h : readSpec env cmd = (tr, .ok fileBytes))
    (hT : ¬ dashBoundary (randomBoundary env) <:+: cmd.specType)
    (hC : ¬ dashBoundary (randomBoundary env) <:+: fileBytes)
    (hcr : (13 : UInt8) ∉ Base cmd.specFile) (hlf : (10 : UInt8) ∉ Base cmd.specFile) :
    (runHandler.add env cmd).trace.filter Event.isPost =
        [.HTTPServicePostData (ascii "v1/runs")
          (formData (randomBoundary env)
            [⟨ascii "type", none, cmd.specType⟩,
              ⟨ascii "file", some (Base cmd.specFile), fileBytes⟩])
          (ascii "multipart/form-data; boundary=" ++ randomBoundary env)] ∧
      (∃ typePart filePart,
        postedForm (runHandler.add env cmd).trace = some [typePart, filePart] ∧
        typePart.name = ascii "type" ∧ typePart.fileName = none ∧
        typePart.content = cmd.specType ∧
        filePart.name = ascii "file" ∧ filePart.fileName = some (Base cmd.specFile) ∧
        filePart.content = fileBytes) ∧
      (cmd.specFile = ascii "stdin" → Base cmd.specFile = ascii "stdin") ∧
      (∀ dir name, name ≠ [] → Separator ∉ name → cmd.specFile = dir ++ [Separator] ++ name →
        Base cmd.specFile = name) := by
  refine ⟨?_, ?_, ?_, ?_⟩
  · rw [add_post_filter env cmd tr fileBytes h]
    rfl
  · exact ⟨_, _, add_decodes env cmd tr fileBytes h hT hC hcr hlf, rfl, rfl, rfl, rfl, rfl, rfl⟩
  · intro hs
    rw [hs]
    exact Base_stdin
  · intro dir name hne hsep hpath
    rw [hpath]
    exact Base_last_element dir name hne hsep

/-- A spec of one line, read from a file, as an instance of the amended C10. -/
theorem add_posts_two_parts_witness :
    (readSpec (exampleEnv (ascii "name: demo\r\n") exampleRandom rfl)
          ⟨[], ascii "job", examplePath⟩ = ([], .ok (ascii "name: demo\r\n")) ∧
        ¬ dashBoundary (randomBoundary (exampleEnv (ascii "name: demo\r\n") exampleRandom rfl))
          <:+: ascii "job" ∧
        ¬ dashBoundary (randomBoundary (exampleEnv (ascii "name: demo\r\n") exampleRandom rfl))
          <:+: ascii "name: demo\r\n" ∧
        (13 : UInt8) ∉ Base examplePath ∧ (10 : UInt8) ∉ Base examplePath) ∧
      ∃ typePart filePart,
        postedForm (runHandler.add (exampleEnv (ascii "name: demo\r\n") exampleRandom rfl)
          ⟨[], ascii "job", examplePath⟩).trace = some [typePart, filePart] ∧
        typePart.name = ascii "type" ∧ typePart.fileName = none ∧
        typePart.content = ascii "job" ∧
        filePart.name = ascii "file" ∧ filePart.fileName = some (Base examplePath) ∧
        filePart.content = ascii "name: demo\r\n" :=
  ⟨⟨rfl, by decide, by decide, by decide, by decide⟩,
    (add_posts_two_parts (exampleEnv (ascii "name: demo\r\n") exampleRandom rfl)
      ⟨[], ascii "job", examplePath⟩ [] (ascii "name: demo\r\n") rfl
      (by decide) (by decide) (by decide) (by decide)).2.1⟩

end QueueCli
